import Mathlib

/-!
Shallow embedding of the `locking` package of
`github.com/lawrencegripper/goazurelocking` (vendored in this repository at
`vendor/github.com/lawrencegripper/goazurelocking/locking.go`), the distributed
lock manager used by the Azure Front Door ingress controller.

Modelling conventions:
* Strings (lock names, blob names) are `List Char`; for the ASCII names the
  validator can accept, Go's byte length coincides with the character count.
* Go `time.Duration` values are integer nanosecond counts (`Int`), exactly as
  in Go, where `Duration` is an `int64` of nanoseconds.
* Each call into the Azure blob lease transport is an event recorded in a
  trace (`List TransportCall`); the outcome the remote service would return is
  passed in as an explicit argument (`TransportResult`), since the remote
  service is an external collaborator.
* The mutex-protected closures `Lock`, `Renew`, `Unlock`/`unlockContext` built
  by `NewLockInstance` become pure state-transition functions
  `lockOp`, `renewOp`, `unlockContext` over the instance's mutable flags
  (`used`, `lockAcquired`) plus the reified cancellation scope (`cancelled`).
-/

namespace Locking

/-- Azure storage service codes distinguished by `locking.go`
(`azblob.ServiceCodeContainerAlreadyExists`, `azblob.ServiceCodeBlobAlreadyExists`,
`azblob.ServiceCodeLeaseIDMissing`); all other codes are `other`. -/
inductive ServiceCode where
  | containerAlreadyExists
  | blobAlreadyExists
  | leaseIDMissing
  | other (code : String)
deriving DecidableEq, Repr

/-- An error returned by a transport call: either an `azblob.StorageError`
carrying a service code (the `err.(azblob.StorageError)` type assertion in
`locking.go` succeeds), or any other error (the assertion fails). -/
inductive TransportErr where
  | storage (code : ServiceCode)
  | network (msg : List Char)
deriving DecidableEq, Repr

/-- Result the lease transport returns for one call. -/
abbrev TransportResult := Except TransportErr Unit

/-- One call issued to the Azure blob lease transport, with the arguments
`locking.go` passes. -/
inductive TransportCall where
  | createContainer (container : List Char)
  | putBlob (blobName : List Char)
  | acquireLease (blobName : List Char) (lockID : List Char) (ttlSeconds : Int)
  | renewLease (blobName : List Char) (lockID : List Char)
  | releaseLease (blobName : List Char) (lockID : List Char)
deriving DecidableEq, Repr

/-- An error returned by `Lock`/`Renew`/`Unlock`: either one of the misuse
errors built with `fmt.Errorf` in `locking.go`, or a transport error passed
through. -/
inductive LockErr where
  | misuse (msg : List Char)
  | transport (e : TransportErr)
deriving DecidableEq, Repr

/-- The immutable data of one lock instance: `LockTTL` (nanoseconds),
`LockID.String()`, and the name of the blob backing the lock. -/
structure LockConfig where
  ttlNs : Int
  lockID : List Char
  blobName : List Char
deriving DecidableEq, Repr

/-- The mutable flags of a `Lock` guarded by `internalMutex` (`used`,
`lockAcquired`), plus the state of the instance's derived cancellation scope
(`cancelled` records that `lockInstance.cancel()` has run). -/
structure LockState where
  used : Bool
  lockAcquired : Bool
  cancelled : Bool
deriving DecidableEq, Repr

/-- The `Idle` state a freshly constructed instance is in. -/
def idleState : LockState := { used := false, lockAcquired := false, cancelled := false }

/-- `int32(lockTTL.Seconds())`, the lease-duration argument Go passes to
`AcquireLease`: nanoseconds divided by 1e9, truncated toward zero (`Int.tdiv`
is t-division, matching Go's float-to-int conversion for the 15–60s range in
which a constructed instance's ttl lies). -/
def ttlSecondsArg (ttlNs : Int) : Int := Int.tdiv ttlNs 1000000000

/-- Embeds the closure `lockInstance.unlockContext` (locking.go): reject if
the lock was never acquired, reject if the instance was already used; then
`defer lockInstance.cancel()` fires on every remaining path, the
`ReleaseLease` call is issued, its error (if any) is returned with `used`
left untouched, and only on success is `used` set.
Returns (new state, result, transport calls issued). -/
def unlockContext (cfg : LockConfig) (releaseResp : TransportResult) (s : LockState) :
    LockState × Except LockErr Unit × List TransportCall :=
  if !s.lockAcquired then
    (s, .error (.misuse ("Lock not acquired, cant unlock".toList)), [])
  else if s.used then
    (s, .error (.misuse ("Lock instance already unlocked, cannot call unlock".toList)), [])
  else
    match releaseResp with
    | .error e =>
        ({ s with cancelled := true }, .error (.transport e),
         [.releaseLease cfg.blobName cfg.lockID])
    | .ok _ =>
        ({ s with cancelled := true, used := true }, .ok (),
         [.releaseLease cfg.blobName cfg.lockID])

/-- Embeds the closure `lockInstance.Lock` (locking.go): reject a used
instance, reject a second acquisition, otherwise issue `AcquireLease` with
the instance's LockID and `int32(lockTTL.Seconds())`, and set `lockAcquired`
on success. -/
def lockOp (cfg : LockConfig) (acquireResp : TransportResult) (s : LockState) :
    LockState × Except LockErr Unit × List TransportCall :=
  if s.used then
    (s, .error (.misuse ("Lock instance already unlocked, cannot be reused".toList)), [])
  else if s.lockAcquired then
    (s, .error (.misuse ("Lock already acquire, call renew to extend a lock".toList)), [])
  else
    match acquireResp with
    | .error e =>
        (s, .error (.transport e),
         [.acquireLease cfg.blobName cfg.lockID (ttlSecondsArg cfg.ttlNs)])
    | .ok _ =>
        ({ s with lockAcquired := true }, .ok (),
         [.acquireLease cfg.blobName cfg.lockID (ttlSecondsArg cfg.ttlNs)])

/-- Embeds the closure `lockInstance.Renew` (locking.go): reject if not
acquired, reject a used instance, otherwise issue `RenewLease`; the flags are
unchanged on success. -/
def renewOp (cfg : LockConfig) (renewResp : TransportResult) (s : LockState) :
    LockState × Except LockErr Unit × List TransportCall :=
  if !s.lockAcquired then
    (s, .error (.misuse ("Lock not acquired, cant renew".toList)), [])
  else if s.used then
    (s, .error (.misuse ("Lock instance already used, cannot be reused".toList)), [])
  else
    match renewResp with
    | .error e =>
        (s, .error (.transport e), [.renewLease cfg.blobName cfg.lockID])
    | .ok _ =>
        (s, .ok (), [.renewLease cfg.blobName cfg.lockID])

/-! ### Lock name validation (`IsValidLockName`, locking.go) -/

/-- A character in the class `[a-z0-9]` of `validLockNameRegex`. -/
def isLowerAlnum (c : Char) : Bool :=
  ('a' ≤ c && c ≤ 'z') || ('0' ≤ c && c ≤ '9')

/-- States of the three-state automaton of the anchored regex
`^[a-z0-9]+(-[a-z0-9]+)*$` (`validLockNameRegex` in locking.go):
`expectFirst` before any character, `inGroup` right after an `[a-z0-9]`
character, `afterHyphen` right after a separator hyphen. -/
inductive RegexState where
  | expectFirst
  | inGroup
  | afterHyphen
deriving DecidableEq, Repr

/-- Transition function of `validLockNameRegex`: a group character always
moves to `inGroup`; a hyphen is allowed only directly after a group
character; anything else rejects. -/
def regexStep (st : RegexState) (c : Char) : Option RegexState :=
  match st with
  | .expectFirst => if isLowerAlnum c then some .inGroup else none
  | .inGroup =>
      if isLowerAlnum c then some .inGroup
      else if c = '-' then some .afterHyphen
      else none
  | .afterHyphen => if isLowerAlnum c then some .inGroup else none

/-- Run of the automaton over a string. -/
def regexRun (st : RegexState) : List Char → Option RegexState
  | [] => some st
  | c :: cs =>
      match regexStep st c with
      | none => none
      | some st' => regexRun st' cs

/-- Whether the automaton run from `st` over `l` ends in the accepting state
`inGroup` (the match must end on an `[a-z0-9]` character). -/
def acceptsFrom (st : RegexState) (l : List Char) : Bool :=
  match regexRun st l with
  | some .inGroup => true
  | _ => false

/-- `validLockNameRegex.MatchString`: the anchored match succeeds exactly
when the run from the start state ends in the accepting state. -/
def matchesLockNameRegex (l : List Char) : Bool :=
  acceptsFrom .expectFirst l

/-- The two distinct validation errors of `IsValidLockName`, each carrying
the (lowercased) name interpolated into its `fmt.Errorf` message. -/
inductive LockNameErr where
  | badLength (name : List Char)
  | badPattern (name : List Char)
deriving DecidableEq, Repr

/-- Embeds `IsValidLockName` (locking.go): lowercase a local copy of the
name, reject if its length is outside 3–58 with the length error, reject if
it does not match `validLockNameRegex` with the syntax error, else accept.
Go's `(bool, error)` pair becomes `Except`: `ok` iff the bool is true. -/
def isValidLockName (lockName : List Char) : Except LockNameErr Unit :=
  let l := lockName.map Char.toLower
  if l.length < 3 || l.length > 58 then .error (.badLength l)
  else if !matchesLockNameRegex l then .error (.badPattern l)
  else .ok ()

/-! Specification-side characterization of the regex, following the claim's
words: alphanumeric groups joined by single hyphens — equivalently no
leading, trailing, or double hyphen and only `[a-z0-9-]` characters. -/

/-- Every character is in `[a-z0-9]` or is a hyphen. -/
def allCharsOk (l : List Char) : Bool :=
  l.all (fun c => isLowerAlnum c || c = '-')

/-- No two adjacent hyphens. -/
def noDoubleHyphen : List Char → Bool
  | [] => true
  | [_] => true
  | c :: d :: rest => !(c = '-' && d = '-') && noDoubleHyphen (d :: rest)

/-- Spec-side syntax: nonempty, only `[a-z0-9-]` characters, no leading
hyphen, no trailing hyphen, no double hyphen. -/
def specLockNameForm (l : List Char) : Bool :=
  !l.isEmpty && allCharsOk l && !(l.head? = some '-') &&
    !(l.getLast? = some '-') && noDoubleHyphen l

/-- What a run started in `inGroup` accepts: a (possibly empty) continuation
whose characters are all in `[a-z0-9-]`, with no double hyphen and no
trailing hyphen. -/
def inGroupSpec (l : List Char) : Bool :=
  allCharsOk l && !(l.getLast? = some '-') && noDoubleHyphen l

/-- What a run started in `afterHyphen` (or `expectFirst`) accepts: a group
character followed by an `inGroup` continuation. -/
def afterHyphenSpec : List Char → Bool
  | [] => false
  | c :: cs => isLowerAlnum c && inGroupSpec cs

/-! ### The `AutoRenewLock` background loop (locking.go) -/

/-- One iteration of the `select` inside `AutoRenewLock`'s goroutine: the
context was cancelled, the ticker fired (carrying the `lockAcquired` flag the
loop reads and the result `l.Renew()` would return), or a loss notification
was received on `LockLost`. -/
inductive RenewEvent where
  | ctxDone
  | tick (lockAcquired : Bool) (renewResp : TransportResult)
  | lockLostRecv
deriving Repr

/-- Observable outcome of a run of the auto-renew goroutine: how many loss
notifications it sent on `LockLost`, whether it called `l.cancel()`, and how
many `Renew()` calls it made. -/
structure AutoRenewOutcome where
  lossNotifications : Nat
  cancelRaised : Bool
  renewCalls : Nat
deriving DecidableEq, Repr

/-- Embeds the goroutine body of `AutoRenewLock` (locking.go) over a sequence
of select outcomes: exit silently on cancellation or on a received loss
notification; on a tick, spin while the lock is not yet acquired, renew
otherwise; on a renew failure call `cancel()`, send exactly one loss
notification, and return. An exhausted event list means the goroutine is
still blocked in `select`; the outcome counts what has happened so far. -/
def autoRenewLoop : List RenewEvent → AutoRenewOutcome
  | [] => { lossNotifications := 0, cancelRaised := false, renewCalls := 0 }
  | .ctxDone :: _ => { lossNotifications := 0, cancelRaised := false, renewCalls := 0 }
  | .lockLostRecv :: _ => { lossNotifications := 0, cancelRaised := false, renewCalls := 0 }
  | .tick acquired resp :: rest =>
      if !acquired then autoRenewLoop rest
      else
        match resp with
        | .error _ => { lossNotifications := 1, cancelRaised := true, renewCalls := 1 }
        | .ok _ =>
            let r := autoRenewLoop rest
            { r with renewCalls := r.renewCalls + 1 }

/-- An event the auto-renew loop passes over without exiting and without a
failed renewal: a tick before acquisition, or a tick whose renewal succeeds. -/
def benignRenewEvent : RenewEvent → Bool
  | .tick false _ => true
  | .tick true (.ok _) => true
  | _ => false

/-- The ticks of an event sequence observed while the lock is acquired —
exactly the iterations in which the loop calls `Renew()`. -/
def countAcquiredTicks (evs : List RenewEvent) : Nat :=
  (evs.filter (fun ev => match ev with | .tick true _ => true | _ => false)).length

/-! ### The `RetryObtainingLock` backoff wrapper (locking.go) -/

/-- Modelled from the spec: the external backoff library (vendored
`github.com/cenkalti/backoff`, whose source is not part of this repository's
`src/` tree) retries a failing operation with exponentially growing sleeps
until the operation succeeds or the total elapsed time exceeds the policy's
maximum elapsed time, after which the operation's final error is returned.
One step is (outcome of one `Lock()` attempt, nanoseconds that would be
slept before the next attempt); `elapsed` is the time already spent.
Returns the surfaced result and the elapsed time at return. -/
def retryLoop (maxElapsedNs : Int) : Int → List (Except LockErr Unit × Int) →
    Option (Except LockErr Unit × Int)
  | _, [] => none
  | elapsed, (res, delay) :: rest =>
      match res with
      | .ok _ => some (.ok (), elapsed)
      | .error e =>
          if elapsed > maxElapsedNs then some (.error e, elapsed)
          else retryLoop maxElapsedNs (elapsed + delay) rest

/-! ### Lock instances and behaviors -/

/-- Reified description of the `Lock`/`Renew`/`Unlock` closure currently
stored in the corresponding field of a `Lock` instance. The base descriptors
denote the closures `NewLockInstance` installs (whose state-transition
semantics are `lockOp`, `renewOp`, `unlockContext`); `retryWrapped inner m`
denotes `func() error { return backoff.Retry(inner, policy) }` where the
policy is an exponential backoff whose `MaxElapsedTime` is `m` nanoseconds
(semantics `retryLoop m`). -/
inductive OpDesc where
  | baseLock
  | baseRenew
  | baseUnlock
  | retryWrapped (inner : OpDesc) (maxElapsedNs : Int)
deriving DecidableEq, Repr

/-- Identifies the background goroutine a monitoring behavior spawns. -/
inductive WatcherTag where
  | autoRenew
  | panicOnLostLock
  | unlockWhenCancelled
deriving DecidableEq, Repr

/-- The reified `Lock` record as built and mutated by `NewLockInstance` and
the behaviors: its immutable config, its flags, the goroutines spawned so far
(in spawn order), and the current `Lock`/`Renew`/`Unlock` function fields. -/
structure LockInstance where
  cfg : LockConfig
  state : LockState
  goroutines : List WatcherTag
  lockFn : OpDesc
  renewFn : OpDesc
  unlockFn : OpDesc
deriving DecidableEq, Repr

/-- Embeds the behavior `AutoRenewLock`: spawns the auto-renew goroutine
(body `autoRenewLoop`) and returns the instance otherwise unchanged. -/
def AutoRenewLock (l : LockInstance) : LockInstance :=
  { l with goroutines := l.goroutines ++ [.autoRenew] }

/-- Embeds the behavior `PanicOnLostLock`: spawns its watcher goroutine and
returns the instance otherwise unchanged. -/
def PanicOnLostLock (l : LockInstance) : LockInstance :=
  { l with goroutines := l.goroutines ++ [.panicOnLostLock] }

/-- Embeds the behavior `UnlockWhenContextCancelled`: spawns its watcher
goroutine and returns the instance otherwise unchanged. -/
def UnlockWhenContextCancelled (l : LockInstance) : LockInstance :=
  { l with goroutines := l.goroutines ++ [.unlockWhenCancelled] }

/-- Embeds the behavior `RetryObtainingLock` (locking.go): builds an
exponential backoff policy with `MaxElapsedTime = l.LockTTL * 10`, captures
the existing `l.Lock`, and replaces `l.Lock` with the retrying wrapper; the
`Renew` and `Unlock` fields are not touched. -/
def RetryObtainingLock (l : LockInstance) : LockInstance :=
  { l with lockFn := .retryWrapped l.lockFn (l.cfg.ttlNs * 10) }

/-- `defaultLockBehaviors` (locking.go): the behaviors used when no behavior
parameters are provided, in declaration order. -/
def defaultLockBehaviors : List (LockInstance → LockInstance) :=
  [AutoRenewLock, PanicOnLostLock, UnlockWhenContextCancelled, RetryObtainingLock]

/-! ### The factory `NewLockInstance` (locking.go) -/

/-- `lockContainerName`: the fixed container shared by all locks. -/
def lockContainerName : List Char := "azlockcontainer".toList

/-- `lockBlobNamePrefix` ("azlk-"): the fixed short string prepended to the
caller-supplied lock name to form the blob name. -/
def lockBlobNameLead : List Char := "azlk-".toList

/-- `lockTTL.Seconds()`: a Go `time.Duration` (nanoseconds) as a number of
seconds, modelled exactly as the rational `ns / 1e9` (for the nanosecond
counts involved the float64 comparison against 15 and 60 agrees with the
exact rational comparison, the two values being at least half a nanosecond
apart while a float64 near 15 or 60 is exact to far finer than that). -/
def durationSeconds (ttlNs : Int) : ℚ := (ttlNs : ℚ) / 1000000000

/-- The guard `lockTTL.Seconds() < 15 || lockTTL.Seconds() > 60` of
`NewLockInstance`, written over the nanosecond count; the lemma
`ttlOutOfRange_iff_seconds` shows this equals the comparison of the exact
seconds value against 15 and 60. -/
def ttlOutOfRange (ttlNs : Int) : Bool :=
  ttlNs < 15 * 1000000000 || ttlNs > 60 * 1000000000

/-- The fields of Go's parsed `url.URL` that `NewLockInstance` inspects. -/
structure ParsedURL where
  scheme : List Char
  hostname : List Char
  path : List Char
deriving DecidableEq, Repr

/-- `strings.Split(hostname, ".")`: splits at every dot; a string with no
dot yields one part, and the result is never empty. -/
def splitOnDot : List Char → List (List Char)
  | [] => [[]]
  | c :: cs =>
      if c = '.' then [] :: splitOnDot cs
      else
        match splitOnDot cs with
        | [] => [[c]]
        | p :: ps => (c :: p) :: ps

/-- Embeds `extractAccountNameFromURL` (locking.go): split the hostname on
dots and return the first part (the `len(parts) < 1` guard is kept although
a split result is never empty). -/
def extractAccountNameFromURL (hostname : List Char) : Except (List Char) (List Char) :=
  let parts := splitOnDot hostname
  if parts.length < 1 then .error ("couldnt extract accountname".toList)
  else .ok (parts.headD [])

/-- The distinct failure cases of `NewLockInstance`, in the order its guards
appear in the source. -/
inductive FactoryErr where
  | emptyKey
  | badTTL (ttlNs : Int)
  | badName (e : LockNameErr)
  | urlParseFailed
  | notHttps
  | nonRootPath
  | badBase64
  | accountNameErr (msg : List Char)
  | transport (e : TransportErr)
deriving DecidableEq, Repr

/-- The collaborators of `NewLockInstance` that live outside this package
(Go standard library and the Azure transport), supplied as an oracle for one
construction run: the result of `url.Parse(storageAccountURL)`, whether the
key is valid base64, the responses of the container-create and blob-put
calls, and the fresh `uuid.NewV4()` value. -/
structure FactoryEnv where
  parsedURL : Option ParsedURL
  base64OkKey : Bool
  createContainerResp : TransportResult
  putBlobResp : TransportResult
  freshLockID : List Char
deriving Repr

/-- The fatal condition of the container-create error handling in
`NewLockInstance`: the error is fatal unless it is an `azblob.StorageError`
whose service code is `ContainerAlreadyExists` (a container of this name may
already exist). -/
def containerCreateFatal : TransportErr → Bool
  | .storage code => code ≠ .containerAlreadyExists
  | .network _ => true

/-- The fatal condition of the placeholder-blob `PutBlob` error handling in
`NewLockInstance`: the error is fatal unless it is an `azblob.StorageError`
whose service code is `BlobAlreadyExists` or `LeaseIDMissing` (a lock blob of
this name may already exist and may already carry an active lease). -/
def putBlobFatal : TransportErr → Bool
  | .storage code => code ≠ .blobAlreadyExists && code ≠ .leaseIDMissing
  | .network _ => true

/-- The `lockInstance` literal `NewLockInstance` builds after provisioning:
`Idle`, fresh LockID, blob named fixed short lead string + the original
caller-supplied name, base closures installed, no behavior applied yet. -/
def baseLockInstance (env : FactoryEnv) (lockName : List Char) (lockTTLNs : Int) :
    LockInstance :=
  { cfg := { ttlNs := lockTTLNs, lockID := env.freshLockID,
             blobName := lockBlobNameLead ++ lockName }
    state := idleState
    goroutines := []
    lockFn := .baseLock
    renewFn := .baseRenew
    unlockFn := .baseUnlock }

/-- The behavior-application tail of `NewLockInstance`: if no behaviors were
supplied use `defaultLockBehaviors`, then apply them left to right. -/
def applyBehaviors (behavior : List (LockInstance → LockInstance))
    (base : LockInstance) : LockInstance :=
  (if behavior.isEmpty then defaultLockBehaviors else behavior).foldl
    (fun l b => b l) base

/-- The `PutBlob` step of `NewLockInstance` and everything after it: issue
the placeholder-blob upload, abort on a fatal error, otherwise build the
instance and apply the behaviors. Returns the result and the transport calls
of this step. -/
def putBlobStep (env : FactoryEnv) (lockName : List Char) (lockTTLNs : Int)
    (behavior : List (LockInstance → LockInstance)) :
    Except FactoryErr LockInstance × List TransportCall :=
  let putCall := TransportCall.putBlob (lockBlobNameLead ++ lockName)
  match env.putBlobResp with
  | .error e =>
      if putBlobFatal e then (.error (.transport e), [putCall])
      else (.ok (applyBehaviors behavior (baseLockInstance env lockName lockTTLNs)),
            [putCall])
  | .ok _ =>
      (.ok (applyBehaviors behavior (baseLockInstance env lockName lockTTLNs)),
       [putCall])

/-- The storage-provisioning part of `NewLockInstance`: create the shared
container (aborting on a fatal error), then run `putBlobStep`. -/
def provisionAndBuild (env : FactoryEnv) (lockName : List Char) (lockTTLNs : Int)
    (behavior : List (LockInstance → LockInstance)) :
    Except FactoryErr LockInstance × List TransportCall :=
  let createCall := TransportCall.createContainer lockContainerName
  match env.createContainerResp with
  | .error e =>
      if containerCreateFatal e then (.error (.transport e), [createCall])
      else
        let r := putBlobStep env lockName lockTTLNs behavior
        (r.1, createCall :: r.2)
  | .ok _ =>
      let r := putBlobStep env lockName lockTTLNs behavior
      (r.1, createCall :: r.2)

/-- Embeds `NewLockInstance` (locking.go), returning the constructed
instance (or the first error) together with the trace of transport calls
issued, in order:
1. reject an empty account key;
2. reject a ttl whose seconds are below 15 or above 60;
3. reject a name `IsValidLockName` rejects;
4. reject a URL that fails to parse, is not https, or has a non-root path;
5. reject a key that is not valid base64;
6. extract the account name from the URL host;
7. provision the container and placeholder blob, build the `Idle` instance
   with a fresh LockID, and apply the caller's behaviors — or
   `defaultLockBehaviors` when none were supplied — left to right
   (`provisionAndBuild`). -/
def newLockInstance (env : FactoryEnv) (storageAccountKey : List Char)
    (lockName : List Char) (lockTTLNs : Int)
    (behavior : List (LockInstance → LockInstance)) :
    Except FactoryErr LockInstance × List TransportCall :=
  if storageAccountKey = [] then (.error .emptyKey, [])
  else if ttlOutOfRange lockTTLNs then (.error (.badTTL lockTTLNs), [])
  else
    match isValidLockName lockName with
    | .error e => (.error (.badName e), [])
    | .ok _ =>
      match env.parsedURL with
      | none => (.error .urlParseFailed, [])
      | some u =>
        if u.scheme ≠ "https".toList then (.error .notHttps, [])
        else if u.path ≠ [] then (.error .nonRootPath, [])
        else if !env.base64OkKey then (.error .badBase64, [])
        else
          match extractAccountNameFromURL u.hostname with
          | .error m => (.error (.accountNameErr m), [])
          | .ok _accountName => provisionAndBuild env lockName lockTTLNs behavior

/-- A concrete parsed storage-account URL, matching
`https://acct.blob.core.windows.net`. -/
def sampleURL : ParsedURL :=
  { scheme := "https".toList
    hostname := "acct.blob.core.windows.net".toList
    path := [] }

/-- A concrete collaborator oracle in which every external call succeeds,
used to evaluate the factory on concrete inputs. -/
def okEnv : FactoryEnv :=
  { parsedURL := some sampleURL
    base64OkKey := true
    createContainerResp := .ok ()
    putBlobResp := .ok ()
    freshLockID := "id1".toList }

/-! ## Theorems -/

/-- C1: a Released lock instance is terminal. `Unlock()` from Idle
(`lockAcquired` false) returns an error with no lease call; a successful
`Unlock()` from Acquired moves to the terminal state (`used` true, and
`lockAcquired` is left true); and from any state with `used` true every
`Lock()`, `Renew()` and `Unlock()` call returns an error and performs no
lease operation. -/
theorem released_lock_terminal (cfg : LockConfig) (resp : TransportResult)
    (s : LockState) :
    (s.lockAcquired = false →
      unlockContext cfg resp s =
        (s, .error (.misuse ("Lock not acquired, cant unlock".toList)), [])) ∧
    (s.lockAcquired = true → s.used = false →
      unlockContext cfg (.ok ()) s =
        ({ s with cancelled := true, used := true }, .ok (),
         [.releaseLease cfg.blobName cfg.lockID])) ∧
    (s.used = true →
      unlockContext cfg resp s =
        (s, .error (.misuse
          (if s.lockAcquired then "Lock instance already unlocked, cannot call unlock".toList
           else "Lock not acquired, cant unlock".toList)), []) ∧
      lockOp cfg resp s =
        (s, .error (.misuse ("Lock instance already unlocked, cannot be reused".toList)), []) ∧
      (s.lockAcquired = true →
        renewOp cfg resp s =
          (s, .error (.misuse ("Lock instance already used, cannot be reused".toList)), []))) := by
  refine ⟨?_, ?_, ?_⟩
  · intro h
    simp [unlockContext, h]
  · intro h hu
    simp [unlockContext, h, hu]
  · intro hu
    refine ⟨?_, ?_, ?_⟩
    · cases h : s.lockAcquired <;> simp [unlockContext, h, hu]
    · simp [lockOp, hu]
    · intro h
      simp [renewOp, h, hu]

/-- C1 witness: concrete run — unlock from Idle fails; a successful unlock
from Acquired reaches the terminal state; from that state lock, renew and
unlock all fail with no transport call. -/
theorem released_lock_terminal_witness :
    (unlockContext { ttlNs := 15000000000, lockID := "id".toList, blobName := "azlk-abc".toList }
        (.ok ()) idleState =
      (idleState, .error (.misuse ("Lock not acquired, cant unlock".toList)), [])) ∧
    (lockOp { ttlNs := 15000000000, lockID := "id".toList, blobName := "azlk-abc".toList }
        (.ok ()) { used := true, lockAcquired := true, cancelled := true } =
      ({ used := true, lockAcquired := true, cancelled := true },
       .error (.misuse ("Lock instance already unlocked, cannot be reused".toList)), [])) := by
  constructor
  · exact (released_lock_terminal _ (.ok ()) idleState).1 rfl
  · exact ((released_lock_terminal _ (.ok ())
      { used := true, lockAcquired := true, cancelled := true }).2.2 rfl).2.1

/-- C2: `Lock()` is valid only from Idle. On a used instance or an already
acquired instance it returns a misuse error and issues no `AcquireLease`
call; from Idle it issues exactly one `AcquireLease` call carrying the
instance's LockID and its ttl in seconds, and sets `lockAcquired` exactly
when the call succeeds. -/
theorem lock_only_from_idle (cfg : LockConfig) (resp : TransportResult)
    (s : LockState) :
    (s.used = true →
      lockOp cfg resp s =
        (s, .error (.misuse ("Lock instance already unlocked, cannot be reused".toList)), [])) ∧
    (s.used = false → s.lockAcquired = true →
      lockOp cfg resp s =
        (s, .error (.misuse ("Lock already acquire, call renew to extend a lock".toList)), [])) ∧
    (s.used = false → s.lockAcquired = false →
      lockOp cfg (.ok ()) s =
        ({ s with lockAcquired := true }, .ok (),
         [.acquireLease cfg.blobName cfg.lockID (ttlSecondsArg cfg.ttlNs)]) ∧
      ∀ e, lockOp cfg (.error e) s =
        (s, .error (.transport e),
         [.acquireLease cfg.blobName cfg.lockID (ttlSecondsArg cfg.ttlNs)])) := by
  refine ⟨?_, ?_, ?_⟩
  · intro hu
    simp [lockOp, hu]
  · intro hu ha
    simp [lockOp, hu, ha]
  · intro hu ha
    constructor
    · simp [lockOp, hu, ha]
    · intro e
      simp [lockOp, hu, ha]

/-- C2 witness: concrete run — lock on an acquired instance fails with no
transport call; lock from Idle issues the acquire call with the LockID and
15 seconds and acquires. -/
theorem lock_only_from_idle_witness :
    (lockOp { ttlNs := 15000000000, lockID := "id".toList, blobName := "azlk-abc".toList }
        (.ok ()) { used := false, lockAcquired := true, cancelled := false } =
      ({ used := false, lockAcquired := true, cancelled := false },
       .error (.misuse ("Lock already acquire, call renew to extend a lock".toList)), [])) ∧
    (lockOp { ttlNs := 15000000000, lockID := "id".toList, blobName := "azlk-abc".toList }
        (.ok ()) idleState =
      ({ used := false, lockAcquired := true, cancelled := false }, .ok (),
       [.acquireLease "azlk-abc".toList "id".toList 15])) := by
  constructor
  · exact (lock_only_from_idle _ (.ok ())
      { used := false, lockAcquired := true, cancelled := false }).2.1 rfl rfl
  · exact ((lock_only_from_idle
      { ttlNs := 15000000000, lockID := "id".toList, blobName := "azlk-abc".toList }
      (.ok ()) idleState).2.2 rfl rfl).1

/-- C9: `Unlock()` is not atomic with respect to teardown on error. When the
state checks pass and the `ReleaseLease` call fails, the error is returned
with `used` still false (so a later `Unlock()` is not rejected as a
double-unlock and can succeed), while the cancellation scope is cancelled
both on the failing and on the successful path. -/
theorem unlock_error_not_terminal (cfg : LockConfig) (s : LockState)
    (e : TransportErr) (hacq : s.lockAcquired = true) (hused : s.used = false) :
    unlockContext cfg (.error e) s =
      ({ s with cancelled := true }, .error (.transport e),
       [.releaseLease cfg.blobName cfg.lockID]) ∧
    (unlockContext cfg (.error e) s).1.used = false ∧
    (unlockContext cfg (.error e) s).1.cancelled = true ∧
    (unlockContext cfg (.ok ()) s).1.cancelled = true ∧
    unlockContext cfg (.ok ()) (unlockContext cfg (.error e) s).1 =
      ({ s with cancelled := true, used := true }, .ok (),
       [.releaseLease cfg.blobName cfg.lockID]) := by
  refine ⟨?_, ?_, ?_, ?_, ?_⟩ <;>
    simp [unlockContext, hacq, hused]

/-- C9 witness: concrete run — a failed release leaves `used` false and
cancels the scope, and a second unlock then succeeds. -/
theorem unlock_error_not_terminal_witness :
    unlockContext { ttlNs := 15000000000, lockID := "id".toList, blobName := "azlk-abc".toList }
        (.error (.network "timeout".toList))
        { used := false, lockAcquired := true, cancelled := false } =
      ({ used := false, lockAcquired := true, cancelled := true },
       .error (.transport (.network "timeout".toList)),
       [.releaseLease "azlk-abc".toList "id".toList]) :=
  (unlock_error_not_terminal _ _ (.network "timeout".toList) rfl rfl).1

/-- C3: for any run of the auto-renew goroutine whose earlier select
outcomes are benign (ticks before acquisition or with successful renewals),
a first failing `Renew()` makes the loop raise cancellation, emit exactly
one loss notification, and exit having made no renewal attempt beyond that
failing one — whatever events would have followed; and if cancellation
arrives first the loop exits silently, with zero loss notifications, no
cancellation raised by the loop itself, and no further renewal attempts. -/
theorem auto_renew_single_failure (pre post : List RenewEvent) (e : TransportErr)
    (hpre : ∀ ev ∈ pre, benignRenewEvent ev = true) :
    autoRenewLoop (pre ++ .tick true (.error e) :: post) =
      { lossNotifications := 1, cancelRaised := true,
        renewCalls := countAcquiredTicks pre + 1 } ∧
    autoRenewLoop (pre ++ .ctxDone :: post) =
      { lossNotifications := 0, cancelRaised := false,
        renewCalls := countAcquiredTicks pre } := by
  induction pre with
  | nil => simp [autoRenewLoop, countAcquiredTicks]
  | cons ev rest ih =>
    have hev : benignRenewEvent ev = true := hpre ev (List.mem_cons_self ev rest)
    have hrest : ∀ x ∈ rest, benignRenewEvent x = true := by
      intro x hx
      exact hpre x (List.mem_cons_of_mem ev hx)
    obtain ⟨ih1, ih2⟩ := ih hrest
    cases ev with
    | ctxDone => simp [benignRenewEvent] at hev
    | lockLostRecv => simp [benignRenewEvent] at hev
    | tick acq resp =>
      cases acq with
      | false =>
        constructor
        · simpa [autoRenewLoop, countAcquiredTicks] using ih1
        · simpa [autoRenewLoop, countAcquiredTicks] using ih2
      | true =>
        cases resp with
        | error e2 => simp [benignRenewEvent] at hev
        | ok u =>
          constructor
          · simp [autoRenewLoop, countAcquiredTicks, ih1]
          · simp [autoRenewLoop, countAcquiredTicks, ih2]

/-- C3 witness: a successful-renewal tick followed by a failing one yields
exactly one loss notification and a raised cancellation; a cancellation
right after the same benign prefix yields none. -/
theorem auto_renew_single_failure_witness :
    autoRenewLoop [.tick true (.ok ()), .tick true (.error (.network "gone".toList)),
        .tick true (.ok ())] =
      { lossNotifications := 1, cancelRaised := true, renewCalls := 2 } ∧
    autoRenewLoop [.tick true (.ok ()), .ctxDone, .tick true (.ok ())] =
      { lossNotifications := 0, cancelRaised := false, renewCalls := 1 } := by
  have h := auto_renew_single_failure [.tick true (.ok ())] [.tick true (.ok ())]
    (.network "gone".toList) (by intro ev hev; simp at hev; rw [hev]; rfl)
  exact ⟨h.1, h.2⟩

/-- Helper: when every attempt of a retry run fails, whatever result the
loop surfaces is the error of one of those attempts, never a success. -/
theorem retryLoop_allFail_error (maxE : Int) (steps : List (Except LockErr Unit × Int)) :
    ∀ (elapsed : Int), (∀ p ∈ steps, ∃ e, p.1 = Except.error e) →
      ∀ r, retryLoop maxE elapsed steps = some r → ∃ e, r.1 = Except.error e := by
  induction steps with
  | nil =>
    intro elapsed _ r hr
    simp [retryLoop] at hr
  | cons p rest ih =>
    intro elapsed hall r hr
    obtain ⟨res, d⟩ := p
    obtain ⟨e, he⟩ := hall (res, d) (List.mem_cons_self _ _)
    simp only at he
    subst he
    simp only [retryLoop] at hr
    by_cases hel : elapsed > maxE
    · rw [if_pos hel] at hr
      obtain rfl : (Except.error e, elapsed) = r := Option.some.inj hr
      exact ⟨e, rfl⟩
    · rw [if_neg hel] at hr
      exact ih (elapsed + d) (fun q hq => hall q (List.mem_cons_of_mem _ hq)) r hr

/-- C4: the Retry-On-Contention behavior replaces only the `Lock` field,
wrapping the original lock operation in a backoff retry whose maximum total
elapsed time is ten times the instance's ttl; `Renew`, `Unlock`, the config,
the flags and the spawned goroutines are untouched. In the retry loop with
that budget, once the elapsed time exceeds the maximum no further attempt is
made and the error of the failing attempt is surfaced; and when every
attempt fails, whatever the loop surfaces is one of those errors, never a
success. -/
theorem retry_wraps_only_lock (l : LockInstance) (elapsed : Int) (e : LockErr)
    (d : Int) (rest steps : List (Except LockErr Unit × Int)) :
    RetryObtainingLock l =
      { l with lockFn := .retryWrapped l.lockFn (l.cfg.ttlNs * 10) } ∧
    (RetryObtainingLock l).renewFn = l.renewFn ∧
    (RetryObtainingLock l).unlockFn = l.unlockFn ∧
    (RetryObtainingLock l).cfg = l.cfg ∧
    (RetryObtainingLock l).state = l.state ∧
    (RetryObtainingLock l).goroutines = l.goroutines ∧
    (elapsed > l.cfg.ttlNs * 10 →
      retryLoop (l.cfg.ttlNs * 10) elapsed ((Except.error e, d) :: rest) =
        some (Except.error e, elapsed)) ∧
    ((∀ p ∈ steps, ∃ e2, p.1 = Except.error e2) →
      ∀ r, retryLoop (l.cfg.ttlNs * 10) elapsed steps = some r →
        ∃ e2, r.1 = Except.error e2) := by
  refine ⟨rfl, rfl, rfl, rfl, rfl, rfl, ?_, ?_⟩
  · intro hel
    simp [retryLoop, hel]
  · exact retryLoop_allFail_error (l.cfg.ttlNs * 10) steps elapsed

/-- C4 witness: on a concrete instance with a 15s ttl, the wrapper records
the 150s budget; a retry run that has exceeded the budget surfaces the
pending error immediately, and a concrete all-failing run surfaces an
error. -/
theorem retry_wraps_only_lock_witness :
    RetryObtainingLock
        { cfg := { ttlNs := 15000000000, lockID := "id".toList, blobName := "azlk-abc".toList },
          state := idleState, goroutines := [], lockFn := .baseLock,
          renewFn := .baseRenew, unlockFn := .baseUnlock } =
      { cfg := { ttlNs := 15000000000, lockID := "id".toList, blobName := "azlk-abc".toList },
        state := idleState, goroutines := [],
        lockFn := .retryWrapped .baseLock 150000000000,
        renewFn := .baseRenew, unlockFn := .baseUnlock } ∧
    retryLoop 150000000000 150000000001
        [(Except.error (.transport (.storage (.other "LeaseAlreadyPresent"))), 500000000)] =
      some (Except.error (.transport (.storage (.other "LeaseAlreadyPresent"))),
        150000000001) := by
  have h := retry_wraps_only_lock
    { cfg := { ttlNs := 15000000000, lockID := "id".toList, blobName := "azlk-abc".toList },
      state := idleState, goroutines := [], lockFn := .baseLock,
      renewFn := .baseRenew, unlockFn := .baseUnlock }
    150000000001 (.transport (.storage (.other "LeaseAlreadyPresent"))) 500000000 [] []
  exact ⟨h.1, h.2.2.2.2.2.2.1 (by norm_num)⟩

/-- Helper: a group character is never the hyphen. -/
theorem isLowerAlnum_ne_hyphen (c : Char) (h : isLowerAlnum c = true) : c ≠ '-' := by
  intro hEq
  rw [hEq] at h
  exact Bool.false_ne_true ((by decide : isLowerAlnum '-' = false) ▸ h)

/-- Helper: a leading group character does not affect the `inGroup`
continuation syntax. -/
theorem inGroupSpec_cons_alnum (c : Char) (cs : List Char)
    (h : isLowerAlnum c = true) : inGroupSpec (c :: cs) = inGroupSpec cs := by
  have hne : c ≠ '-' := isLowerAlnum_ne_hyphen c h
  cases cs with
  | nil => simp [inGroupSpec, allCharsOk, noDoubleHyphen, h, hne]
  | cons d ds => simp [inGroupSpec, allCharsOk, noDoubleHyphen, h, hne]

/-- Helper: an `inGroup` continuation starting with a hyphen is exactly a
valid `afterHyphen` continuation of the rest. -/
theorem inGroupSpec_cons_hyphen (cs : List Char) :
    inGroupSpec ('-' :: cs) = afterHyphenSpec cs := by
  cases cs with
  | nil => decide
  | cons d ds =>
    by_cases hd : isLowerAlnum d = true
    · have hne : d ≠ '-' := isLowerAlnum_ne_hyphen d hd
      rw [afterHyphenSpec, hd, Bool.true_and, ← inGroupSpec_cons_alnum d ds hd]
      simp [inGroupSpec, allCharsOk, noDoubleHyphen, hne]
    · rw [Bool.not_eq_true] at hd
      by_cases hne : d = '-'
      · subst hne
        simp [afterHyphenSpec, inGroupSpec, noDoubleHyphen, hd]
      · simp [afterHyphenSpec, inGroupSpec, allCharsOk, hd, hne]

/-- Helper: one automaton step in terms of `acceptsFrom`. -/
theorem acceptsFrom_cons (st : RegexState) (c : Char) (cs : List Char) :
    acceptsFrom st (c :: cs) =
      match regexStep st c with
      | none => false
      | some st' => acceptsFrom st' cs := by
  cases h : regexStep st c <;> simp [acceptsFrom, regexRun, h]

/-- Helper: the automaton run from `inGroup` accepts exactly the
`inGroupSpec` continuations, and from `afterHyphen` (equivalently from the
start state) exactly the `afterHyphenSpec` continuations. -/
theorem acceptsFrom_spec (l : List Char) :
    acceptsFrom .inGroup l = inGroupSpec l ∧
    acceptsFrom .afterHyphen l = afterHyphenSpec l := by
  induction l with
  | nil => exact ⟨by decide, by decide⟩
  | cons c cs ih =>
    obtain ⟨ihP, ihQ⟩ := ih
    by_cases hal : isLowerAlnum c = true
    · have hstep1 : regexStep .inGroup c = some .inGroup := by simp [regexStep, hal]
      have hstep2 : regexStep .afterHyphen c = some .inGroup := by simp [regexStep, hal]
      constructor
      · rw [acceptsFrom_cons, hstep1]
        show acceptsFrom .inGroup cs = _
        rw [ihP, inGroupSpec_cons_alnum c cs hal]
      · rw [acceptsFrom_cons, hstep2]
        show acceptsFrom .inGroup cs = _
        rw [ihP]
        simp only [afterHyphenSpec, hal, Bool.true_and]
    · have hal' : isLowerAlnum c = false := by simpa using hal
      by_cases hhy : c = '-'
      · subst hhy
        have hstep1 : regexStep .inGroup '-' = some .afterHyphen := by decide
        have hstep2 : regexStep .afterHyphen '-' = none := by decide
        constructor
        · rw [acceptsFrom_cons, hstep1]
          show acceptsFrom .afterHyphen cs = _
          rw [ihQ, inGroupSpec_cons_hyphen]
        · rw [acceptsFrom_cons, hstep2]
          show false = _
          simp only [afterHyphenSpec, hal', Bool.false_and]
      · have hstep1 : regexStep .inGroup c = none := by simp [regexStep, hal', hhy]
        have hstep2 : regexStep .afterHyphen c = none := by simp [regexStep, hal']
        constructor
        · rw [acceptsFrom_cons, hstep1]
          show false = _
          simp [inGroupSpec, allCharsOk, hal', hhy]
        · rw [acceptsFrom_cons, hstep2]
          show false = _
          simp [afterHyphenSpec, hal']

/-- Helper: the spec-side syntax of a nonempty string is a group character
followed by an `inGroup` continuation. -/
theorem specSyntax_cons (c : Char) (cs : List Char) :
    specLockNameForm (c :: cs) = (isLowerAlnum c && inGroupSpec cs) := by
  by_cases hal : isLowerAlnum c = true
  · have hne : c ≠ '-' := isLowerAlnum_ne_hyphen c hal
    rw [hal, Bool.true_and, ← inGroupSpec_cons_alnum c cs hal]
    simp [specLockNameForm, inGroupSpec, hne, Bool.and_assoc]
  · have hal' : isLowerAlnum c = false := Bool.not_eq_true _ ▸ (by simpa using hal)
    rw [hal', Bool.false_and]
    by_cases hhy : c = '-'
    · subst hhy
      simp [specLockNameForm]
    · simp [specLockNameForm, allCharsOk, hal', hhy]

/-- Helper: the regex of `IsValidLockName` matches exactly the strings of
the spec-side syntax (alphanumeric groups joined by single hyphens: no
leading, trailing, or double hyphen). -/
theorem matchesLockNameRegex_eq_spec (l : List Char) :
    matchesLockNameRegex l = specLockNameForm l := by
  cases l with
  | nil => rfl
  | cons c cs =>
    rw [matchesLockNameRegex, acceptsFrom_cons, specSyntax_cons]
    by_cases hal : isLowerAlnum c = true
    · have hstep : regexStep .expectFirst c = some .inGroup := by simp [regexStep, hal]
      rw [hstep, hal, Bool.true_and]
      show acceptsFrom .inGroup cs = _
      exact (acceptsFrom_spec cs).1
    · have hal' : isLowerAlnum c = false := by simpa using hal
      have hstep : regexStep .expectFirst c = none := by simp [regexStep, hal']
      rw [hstep, hal', Bool.false_and]

/-- Helper: `isValidLockName` accepts exactly the names whose lowercased
form has length 3–58 and the spec-side syntax; a bad length gives the
length error (on the lowercased name), a good length with bad syntax gives
the syntax error. -/
theorem isValidLockName_cases (name : List Char) :
    (isValidLockName name = .ok () ↔
      (3 ≤ (name.map Char.toLower).length ∧ (name.map Char.toLower).length ≤ 58 ∧
        specLockNameForm (name.map Char.toLower) = true)) ∧
    ((name.map Char.toLower).length < 3 ∨ 58 < (name.map Char.toLower).length →
      isValidLockName name = .error (.badLength (name.map Char.toLower))) ∧
    (3 ≤ (name.map Char.toLower).length → (name.map Char.toLower).length ≤ 58 →
      specLockNameForm (name.map Char.toLower) = false →
      isValidLockName name = .error (.badPattern (name.map Char.toLower))) := by
  set low := name.map Char.toLower with hlow
  by_cases hlen : low.length < 3 ∨ 58 < low.length
  · have hbad : (low.length < 3 || low.length > 58) = true := by
      rcases hlen with h | h <;> simp [h]
    refine ⟨?_, fun _ => ?_, ?_⟩
    · rw [isValidLockName, ← hlow, hbad]
      simp only [if_true]
      constructor
      · intro h
        exact absurd h (by simp)
      · intro ⟨h3, h58, _⟩
        rcases hlen with h | h
        · omega
        · omega
    · rw [isValidLockName, ← hlow, hbad]
      simp
    · intro h3 h58 _
      rcases hlen with h | h <;> omega
  · push_neg at hlen
    obtain ⟨h3, h58⟩ := hlen
    have hgood : (low.length < 3 || low.length > 58) = false := by
      simp only [Bool.or_eq_false_iff, decide_eq_false_iff_not]
      omega
    rw [isValidLockName, ← hlow, hgood] at *
    refine ⟨?_, ?_, ?_⟩
    · simp only [if_false, Bool.false_eq_true]
      rw [matchesLockNameRegex_eq_spec]
      cases hs : specLockNameForm low with
      | true => simp [hs]; omega
      | false => simp [hs]
    · intro h
      rcases h with h | h <;> omega
    · intro _ _ hs
      simp only [if_false, Bool.false_eq_true]
      rw [matchesLockNameRegex_eq_spec, hs]
      simp

/-- C5: validation accepts a lock name exactly when its lowercase-normalized
form has length in [3,58] and consists of alphanumeric groups joined by
single hyphens (no leading, trailing, or double hyphen); a violated length
rule yields the length error and a violated syntax rule yields the distinct
syntax error. -/
theorem lock_name_validation (name : List Char) :
    (isValidLockName name = .ok () ↔
      (3 ≤ (name.map Char.toLower).length ∧ (name.map Char.toLower).length ≤ 58 ∧
        specLockNameForm (name.map Char.toLower) = true)) ∧
    ((name.map Char.toLower).length < 3 ∨ 58 < (name.map Char.toLower).length →
      isValidLockName name = .error (.badLength (name.map Char.toLower))) ∧
    (3 ≤ (name.map Char.toLower).length → (name.map Char.toLower).length ≤ 58 →
      specLockNameForm (name.map Char.toLower) = false →
      isValidLockName name = .error (.badPattern (name.map Char.toLower))) :=
  isValidLockName_cases name

/-- C5 witness: concrete names — a valid mixed-case name is accepted, a
2-character name gets the length error, a double-hyphen name gets the
syntax error. -/
theorem lock_name_validation_witness :
    isValidLockName "My-Lock1".toList = .ok () ∧
    isValidLockName "ab".toList = .error (.badLength "ab".toList) ∧
    isValidLockName "a--b".toList = .error (.badPattern "a--b".toList) := by
  refine ⟨?_, ?_, ?_⟩
  · exact (lock_name_validation "My-Lock1".toList).1.mpr (by decide)
  · exact (lock_name_validation "ab".toList).2.1 (by decide)
  · exact (lock_name_validation "a--b".toList).2.2 (by decide) (by decide) (by decide)

/-- Helper: the boolean ttl guard of `NewLockInstance` holds exactly when
the exact seconds value of the duration is strictly below 15 or strictly
above 60. -/
theorem ttlOutOfRange_iff_seconds (ttlNs : Int) :
    ttlOutOfRange ttlNs = true ↔
      (durationSeconds ttlNs < 15 ∨ 60 < durationSeconds ttlNs) := by
  simp only [ttlOutOfRange, durationSeconds, Bool.or_eq_true, decide_eq_true_eq, gt_iff_lt]
  rw [div_lt_iff₀ (by norm_num), lt_div_iff₀ (by norm_num)]
  push_cast
  exact_mod_cast Iff.rfl

/-- C6: for every ttl whose exact duration in seconds is strictly below 15
or strictly above 60, `NewLockInstance` returns an error and issues no
storage call — with a nonempty key the error is specifically the ttl error;
and a ttl of exactly 15s or exactly 60s passes the ttl check, the bound
being inclusive. -/
theorem ttl_checked_before_storage (env : FactoryEnv) (key name : List Char)
    (ttlNs : Int) (bs : List (LockInstance → LockInstance))
    (h : durationSeconds ttlNs < 15 ∨ 60 < durationSeconds ttlNs) :
    (∃ e, (newLockInstance env key name ttlNs bs).1 = .error e) ∧
    (newLockInstance env key name ttlNs bs).2 = [] ∧
    (key ≠ [] →
      newLockInstance env key name ttlNs bs = (.error (.badTTL ttlNs), [])) ∧
    ttlOutOfRange (15 * 1000000000) = false ∧
    ttlOutOfRange (60 * 1000000000) = false ∧
    durationSeconds (15 * 1000000000) = 15 ∧
    durationSeconds (60 * 1000000000) = 60 := by
  have hbad : ttlOutOfRange ttlNs = true := (ttlOutOfRange_iff_seconds ttlNs).mpr h
  refine ⟨?_, ?_, ?_, by decide, by decide, ?_, ?_⟩
  · by_cases hk : key = []
    · exact ⟨.emptyKey, by simp [newLockInstance, hk]⟩
    · exact ⟨.badTTL ttlNs, by simp [newLockInstance, hk, hbad]⟩
  · by_cases hk : key = []
    · simp [newLockInstance, hk]
    · simp [newLockInstance, hk, hbad]
  · intro hk
    simp [newLockInstance, hk, hbad]
  · norm_num [durationSeconds]
  · norm_num [durationSeconds]

/-- C6 witness: a 14s ttl is rejected with the ttl error and no storage
call; 15s and 60s pass the ttl check. -/
theorem ttl_checked_before_storage_witness :
    newLockInstance okEnv "key".toList "abc".toList (14 * 1000000000) [] =
      (.error (.badTTL (14 * 1000000000)), []) ∧
    ttlOutOfRange (15 * 1000000000) = false := by
  have h := ttl_checked_before_storage okEnv
    "key".toList "abc".toList (14 * 1000000000) []
    (Or.inl (by norm_num [durationSeconds]))
  exact ⟨h.2.2.1 (by decide), h.2.2.2.1⟩

/-- Helper: splitting on dots never yields an empty list of parts. -/
theorem splitOnDot_ne_nil (l : List Char) : splitOnDot l ≠ [] := by
  cases l with
  | nil => simp [splitOnDot]
  | cons c cs =>
    by_cases h : c = '.'
    · simp [splitOnDot, h]
    · rcases hs : splitOnDot cs with _ | ⟨p, ps⟩ <;> simp [splitOnDot, h, hs]

/-- Helper: account-name extraction always succeeds, returning the first
dot-separated part of the hostname. -/
theorem extractAccountNameFromURL_ok (hostname : List Char) :
    extractAccountNameFromURL hostname = .ok ((splitOnDot hostname).headD []) := by
  have h := splitOnDot_ne_nil hostname
  have hlen : ¬((splitOnDot hostname).length < 1) := by
    have : (splitOnDot hostname).length ≠ 0 := by
      simpa [List.length_eq_zero] using h
    omega
  simp [extractAccountNameFromURL, hlen]

/-- Helper: when every validation guard passes, `NewLockInstance` is exactly
its provisioning-and-build tail. -/
theorem newLockInstance_valid (env : FactoryEnv) (key name : List Char)
    (ttlNs : Int) (bs : List (LockInstance → LockInstance))
    (hk : key ≠ []) (ht : ttlOutOfRange ttlNs = false)
    (hn : isValidLockName name = .ok ()) (u : ParsedURL)
    (hu : env.parsedURL = some u) (hs : u.scheme = "https".toList)
    (hp : u.path = []) (hb : env.base64OkKey = true) :
    newLockInstance env key name ttlNs bs = provisionAndBuild env name ttlNs bs := by
  simp [newLockInstance, hk, ht, hn, hu, hs, hp, hb, extractAccountNameFromURL_ok]

/-- C7: during factory construction an already-exists response is success,
not error. Under passing validation guards: a `ContainerAlreadyExists`
storage code from the container create makes construction proceed exactly
as on a successful create; any other container-create error aborts with
that error after the single create call; a `BlobAlreadyExists` or
`LeaseIDMissing` storage code from the placeholder-blob put still yields a
successfully constructed instance; and any other blob-put error aborts with
that error. -/
theorem already_exists_is_success (env : FactoryEnv) (key name : List Char)
    (ttlNs : Int) (bs : List (LockInstance → LockInstance))
    (hk : key ≠ []) (ht : ttlOutOfRange ttlNs = false)
    (hn : isValidLockName name = .ok ()) (u : ParsedURL)
    (hu : env.parsedURL = some u) (hs : u.scheme = "https".toList)
    (hp : u.path = []) (hb : env.base64OkKey = true) :
    (env.createContainerResp = .error (.storage .containerAlreadyExists) →
      newLockInstance env key name ttlNs bs =
        ((putBlobStep env name ttlNs bs).1,
         .createContainer lockContainerName :: (putBlobStep env name ttlNs bs).2)) ∧
    (∀ e, env.createContainerResp = .error e → containerCreateFatal e = true →
      newLockInstance env key name ttlNs bs =
        (.error (.transport e), [.createContainer lockContainerName])) ∧
    (env.createContainerResp = .ok () →
      (env.putBlobResp = .error (.storage .blobAlreadyExists) ∨
       env.putBlobResp = .error (.storage .leaseIDMissing)) →
      newLockInstance env key name ttlNs bs =
        (.ok (applyBehaviors bs (baseLockInstance env name ttlNs)),
         [.createContainer lockContainerName, .putBlob (lockBlobNameLead ++ name)])) ∧
    (env.createContainerResp = .ok () → ∀ e, env.putBlobResp = .error e →
      putBlobFatal e = true →
      newLockInstance env key name ttlNs bs =
        (.error (.transport e),
         [.createContainer lockContainerName, .putBlob (lockBlobNameLead ++ name)])) := by
  rw [newLockInstance_valid env key name ttlNs bs hk ht hn u hu hs hp hb]
  refine ⟨?_, ?_, ?_, ?_⟩
  · intro hcc
    simp [provisionAndBuild, hcc, containerCreateFatal]
  · intro e hcc hfatal
    simp [provisionAndBuild, hcc, hfatal]
  · intro hcc hpb
    rcases hpb with hpb | hpb <;>
      simp [provisionAndBuild, putBlobStep, hcc, hpb, putBlobFatal]
  · intro hcc e hpb hfatal
    simp [provisionAndBuild, putBlobStep, hcc, hpb, hfatal]

/-- C7 witness: with a concrete environment in which the container already
exists and the blob already has a lease, construction still succeeds and
issues both provisioning calls; with a different fatal storage code on the
container create, construction aborts after the single create call. -/
theorem already_exists_is_success_witness :
    (newLockInstance
        { okEnv with createContainerResp := .error (.storage .containerAlreadyExists) }
        "key".toList "abc".toList 15000000000 [RetryObtainingLock]).1 =
      .ok (applyBehaviors [RetryObtainingLock]
        (baseLockInstance
          { okEnv with createContainerResp := .error (.storage .containerAlreadyExists) }
          "abc".toList 15000000000)) ∧
    newLockInstance { okEnv with createContainerResp := .error (.storage (.other "AuthenticationFailed")) }
        "key".toList "abc".toList 15000000000 [RetryObtainingLock] =
      (.error (.transport (.storage (.other "AuthenticationFailed"))),
       [.createContainer lockContainerName]) := by
  constructor
  · have h := (already_exists_is_success
      { okEnv with createContainerResp := .error (.storage .containerAlreadyExists) }
      "key".toList "abc".toList 15000000000 [RetryObtainingLock]
      (by decide) (by decide) (by rfl) sampleURL rfl rfl rfl rfl).1 rfl
    rw [h]
    rfl
  · exact (already_exists_is_success
      { okEnv with createContainerResp := .error (.storage (.other "AuthenticationFailed")) }
      "key".toList "abc".toList 15000000000 [RetryObtainingLock]
      (by decide) (by decide) (by rfl) sampleURL rfl rfl rfl rfl).2.1
      (.storage (.other "AuthenticationFailed")) rfl (by decide)

/-- C8: with no caller-supplied behaviors, `NewLockInstance` applies exactly
the default set in the fixed order Auto-Renew, Panic-On-Lost-Lock,
Unlock-On-Cancel, Retry-On-Contention (observable as the spawn order of the
watchers and the retry wrapper on the lock function); with any non-empty
behavior list, exactly that list is applied in the given order and no
default is added. -/
theorem behavior_set_replacement (env : FactoryEnv) (key name : List Char)
    (ttlNs : Int)
    (hk : key ≠ []) (ht : ttlOutOfRange ttlNs = false)
    (hn : isValidLockName name = .ok ()) (u : ParsedURL)
    (hu : env.parsedURL = some u) (hs : u.scheme = "https".toList)
    (hp : u.path = []) (hb : env.base64OkKey = true)
    (hcc : env.createContainerResp = .ok ()) (hpb : env.putBlobResp = .ok ()) :
    ((newLockInstance env key name ttlNs []).1 =
      .ok (defaultLockBehaviors.foldl (fun l b => b l)
        (baseLockInstance env name ttlNs))) ∧
    (∀ bs, bs ≠ [] → (newLockInstance env key name ttlNs bs).1 =
      .ok (bs.foldl (fun l b => b l) (baseLockInstance env name ttlNs))) ∧
    defaultLockBehaviors =
      [AutoRenewLock, PanicOnLostLock, UnlockWhenContextCancelled, RetryObtainingLock] ∧
    (defaultLockBehaviors.foldl (fun l b => b l)
        (baseLockInstance env name ttlNs)).goroutines =
      [.autoRenew, .panicOnLostLock, .unlockWhenCancelled] ∧
    (defaultLockBehaviors.foldl (fun l b => b l)
        (baseLockInstance env name ttlNs)).lockFn =
      .retryWrapped .baseLock (ttlNs * 10) := by
  refine ⟨?_, ?_, rfl, rfl, rfl⟩
  · rw [newLockInstance_valid env key name ttlNs [] hk ht hn u hu hs hp hb]
    simp [provisionAndBuild, putBlobStep, hcc, hpb, applyBehaviors]
  · intro bs hbs
    rw [newLockInstance_valid env key name ttlNs bs hk ht hn u hu hs hp hb]
    have hne : bs.isEmpty = false := by
      cases bs with
      | nil => exact absurd rfl hbs
      | cons b rest => rfl
    simp [provisionAndBuild, putBlobStep, hcc, hpb, applyBehaviors, hne]

/-- C8 witness: on a concrete all-success environment, omitting behaviors
yields the default watchers in order with the retry wrapper installed,
while supplying only Retry-On-Contention spawns no watcher at all. -/
theorem behavior_set_replacement_witness :
    (newLockInstance okEnv "key".toList "abc".toList 15000000000 []).1 =
      .ok { cfg := { ttlNs := 15000000000, lockID := "id1".toList,
                     blobName := "azlk-abc".toList },
            state := idleState,
            goroutines := [.autoRenew, .panicOnLostLock, .unlockWhenCancelled],
            lockFn := .retryWrapped .baseLock 150000000000,
            renewFn := .baseRenew, unlockFn := .baseUnlock } ∧
    (newLockInstance okEnv "key".toList "abc".toList 15000000000
        [RetryObtainingLock]).1 =
      .ok { cfg := { ttlNs := 15000000000, lockID := "id1".toList,
                     blobName := "azlk-abc".toList },
            state := idleState,
            goroutines := [],
            lockFn := .retryWrapped .baseLock 150000000000,
            renewFn := .baseRenew, unlockFn := .baseUnlock } := by
  have h := behavior_set_replacement okEnv "key".toList "abc".toList 15000000000
    (by decide) (by decide) (by rfl) sampleURL rfl rfl rfl rfl rfl rfl
  constructor
  · rw [h.1]
    rfl
  · rw [h.2.1 [RetryObtainingLock] (by simp)]
    rfl

/-- C10: lowercase normalization happens only inside validation. For a name
whose lowercased form passes every validation rule, `IsValidLockName`
accepts the original (it lowercases a local copy before checking) and
`NewLockInstance` succeeds; yet the placeholder blob is named with the fixed
lead string "azlk-" concatenated with the original, non-lowercased
caller-supplied name, both in the instance's config and in the issued
`PutBlob` call. -/
theorem lowercase_only_in_validation (env : FactoryEnv) (key name : List Char)
    (ttlNs : Int)
    (_hupper : ∃ c ∈ name, 'A' ≤ c ∧ c ≤ 'Z')
    (h3 : 3 ≤ (name.map Char.toLower).length)
    (h58 : (name.map Char.toLower).length ≤ 58)
    (hsyn : specLockNameForm (name.map Char.toLower) = true)
    (hk : key ≠ []) (ht : ttlOutOfRange ttlNs = false) (u : ParsedURL)
    (hu : env.parsedURL = some u) (hs : u.scheme = "https".toList)
    (hp : u.path = []) (hb : env.base64OkKey = true)
    (hcc : env.createContainerResp = .ok ()) (hpb : env.putBlobResp = .ok ()) :
    isValidLockName name = .ok () ∧
    (newLockInstance env key name ttlNs []).1 =
      .ok (applyBehaviors [] (baseLockInstance env name ttlNs)) ∧
    (baseLockInstance env name ttlNs).cfg.blobName = lockBlobNameLead ++ name ∧
    (applyBehaviors [] (baseLockInstance env name ttlNs)).cfg.blobName =
      lockBlobNameLead ++ name ∧
    (newLockInstance env key name ttlNs []).2 =
      [.createContainer lockContainerName, .putBlob (lockBlobNameLead ++ name)] := by
  have hn : isValidLockName name = .ok () :=
    (isValidLockName_cases name).1.mpr ⟨h3, h58, hsyn⟩
  have hv := newLockInstance_valid env key name ttlNs [] hk ht hn u hu hs hp hb
  refine ⟨hn, ?_, rfl, rfl, ?_⟩
  · rw [hv]
    simp [provisionAndBuild, putBlobStep, hcc, hpb]
  · rw [hv]
    simp [provisionAndBuild, putBlobStep, hcc, hpb]

/-- C10 witness: the name "Abc" contains an uppercase letter, its lowercased
form "abc" is valid, construction succeeds, and the blob is named
"azlk-Abc" with the original casing. -/
theorem lowercase_only_in_validation_witness :
    isValidLockName "Abc".toList = .ok () ∧
    (newLockInstance okEnv "key".toList "Abc".toList 15000000000 []).2 =
      [.createContainer lockContainerName, .putBlob "azlk-Abc".toList] := by
  have h := lowercase_only_in_validation okEnv "key".toList "Abc".toList 15000000000
    (by decide) (by decide) (by decide) (by decide)
    (by decide) (by decide) sampleURL rfl rfl rfl rfl rfl rfl
  exact ⟨h.1, by rw [h.2.2.2.2]; rfl⟩

end Locking
